import Mathlib

/-!
Shallow embedding of the HTTP API bootstrap and error-normalization layer
of the unkod/space repository (package `apis`, file `apis/base.go`), together
with proofs of the specified properties.

Go error values are modelled by the inductive `GoError`; the unwrap chain of
`errors.As` / `errors.Is` is modelled by structural recursion over the
`wrapped` constructor (from `fmt.Errorf` with a `%w` verb) and over the
`Internal` field of a framework HTTP error (echo's `HTTPError.Unwrap`).
Machinery of the repository that lives outside the visible source (the
ApiError constructors, the hook `Trigger` combinator, echo's `FileFS`,
`RemoveTrailingSlash` and the Go standard library path helpers) is
modelled from the spec; each such definition carries a doc comment saying so.
-/

namespace SpaceApis

/-- A Go error value as it can reach the custom `HTTPErrorHandler` of
`apis/base.go`:
* `apiErr` — an error that already carries ApiError semantics (a pre-built
  `*ApiError`; `raw` is its optional raw diagnostic payload, opaque here);
* `httpErr` — a framework `*echo.HTTPError` with status code, message
  (already rendered as text, as `fmt.Sprintf` with a `v` verb would) and an
  optional wrapped `Internal` cause, exposed through `Unwrap`;
* `sqlNoRows` — the `sql.ErrNoRows` sentinel ("no matching row/record");
* `errorString` — any other leaf error value;
* `wrapped` — an error produced by `fmt.Errorf` with a `%w` verb, unwrapping
  to `inner`. -/
inductive GoError where
  | apiErr (code : Nat) (message : String) (raw : Option String)
  | httpErr (code : Nat) (message : String) (internal : Option GoError)
  | sqlNoRows
  | errorString (msg : String)
  | wrapped (pre : String) (inner : GoError)

/-- Raw diagnostic payload attached to a classified `ApiError`: either the
opaque value a pre-built ApiError already carried, or the original error
value stored by a classifier constructor call. Never serialized. -/
inductive RawData where
  | fromStr (s : String)
  | fromErr (e : GoError)

/-- The normalized error value (`ApiError` of the `apis` package): numeric
HTTP status code, client-safe message, optional raw diagnostic payload. -/
structure ApiError where
  code : Nat
  message : String
  rawData : Option RawData

/-- Modelled from the spec: `NewApiError` (defined outside the visible
source) builds the normalized ApiError value from a status code, a message
and an optional raw diagnostic payload. -/
def NewApiError (code : Nat) (message : String) (raw : Option RawData) : ApiError :=
  ⟨code, message, raw⟩

/-- Modelled from the spec: `NewNotFoundError` (outside the visible source)
classifies a "no matching record" condition as Not-Found, code 404, keeping
the original error as raw diagnostic data. -/
def NewNotFoundError (message : String) (raw : GoError) : ApiError :=
  NewApiError 404 message (some (.fromErr raw))

/-- Modelled from the spec: `NewBadRequestError` (outside the visible source)
classifies an unrecognized generic error as Bad-Request, code 400, keeping
the original error as raw diagnostic data. -/
def NewBadRequestError (message : String) (raw : GoError) : ApiError :=
  NewApiError 400 message (some (.fromErr raw))

/-- The `errors.As` search for a `*ApiError` target: the error itself, then
along the unwrap chain (`wrapped` unwraps to `inner`, an `httpErr` unwraps to
its `Internal` cause; the other leaves do not unwrap). -/
def findApiError : GoError → Option ApiError
  | .apiErr code message raw => some ⟨code, message, raw.map RawData.fromStr⟩
  | .httpErr _ _ (some i) => findApiError i
  | .httpErr _ _ none => none
  | .wrapped _ inner => findApiError inner
  | .sqlNoRows => none
  | .errorString _ => none

/-- The `errors.As` search for a `*echo.HTTPError` target along the same
unwrap chain, returning the found error's code, message and internal cause. -/
def findHTTPError : GoError → Option (Nat × String × Option GoError)
  | .httpErr c m i => some (c, m, i)
  | .wrapped _ inner => findHTTPError inner
  | .apiErr _ _ _ => none
  | .sqlNoRows => none
  | .errorString _ => none

/-- The `errors.Is` check against the `sql.ErrNoRows` sentinel along the
unwrap chain. -/
def errIsNoRows : GoError → Bool
  | .sqlNoRows => true
  | .wrapped _ inner => errIsNoRows inner
  | .httpErr _ _ (some i) => errIsNoRows i
  | .httpErr _ _ none => false
  | .apiErr _ _ _ => false
  | .errorString _ => false

/-- One entry written to the diagnostic log by the error handler
(`log.Println` calls of `apis/base.go`), tagged by call site. -/
inductive LogEntry where
  | committedAlready (e : GoError)
  | rawDataLog (d : RawData)
  | internalErr (i : GoError)
  | plainErr (e : GoError)
  | println (v : Option String)

/-- The error classifier of `HTTPErrorHandler` (`apis/base.go` lines 62-84):
maps a non-nil error to exactly one `ApiError`, together with the diagnostic
log entries it emits. Rule order: a pre-built ApiError found by `errors.As`
is used verbatim; else a framework HTTP error found by `errors.As` is
wrapped preserving code and message; else `sql.ErrNoRows` maps to 404 and
anything else to 400. -/
def classify (debug : Bool) (err : GoError) : ApiError × List LogEntry :=
  match findApiError err with
  | some apiErr =>
    (apiErr,
      match apiErr.rawData with
      | some d => if debug then [.rawDataLog d] else []
      | none => [])
  | none =>
    match findHTTPError err with
    | some (code, message, internal) =>
      (NewApiError code message (some (.fromErr (.httpErr code message internal))),
        match internal with
        | some i => if debug then [.internalErr i] else []
        | none => [])
    | none =>
      (if errIsNoRows err then NewNotFoundError "" err else NewBadRequestError "" err,
        if debug then [.plainErr err] else [])

/-- A JSON value as needed for the error wire format. -/
inductive JsonVal where
  | num (n : Nat)
  | str (s : String)
deriving DecidableEq

/-- Modelled from the spec: the JSON serialization of an `ApiError` (its
marshalling lives outside the visible source). The wire format is an object
with a numeric `code` field and a string `message` field; the raw diagnostic
payload is never included. -/
def ApiError.serialize (a : ApiError) : List (String × JsonVal) :=
  [("code", .num a.code), ("message", .str a.message)]

/-- A response write performed through the request context: either an empty
body with a status code (`c.NoContent`) or a JSON body (`c.JSON`). -/
inductive WriteEvent where
  | noContent (code : Nat)
  | json (code : Nat) (body : List (String × JsonVal))
deriving DecidableEq

/-- The observable state of the HTTP response: whether it has been committed
and the writes performed so far. -/
structure Resp where
  committed : Bool
  writes : List WriteEvent
deriving DecidableEq

/-- The HTTP request method, as compared against `http.MethodHead`. -/
inductive Method where
  | head
  | get
  | post
  | put
  | patch
  | delete
deriving DecidableEq

/-- Modelled from the spec: an externally registered `beforeError` observer.
Observers are opaque user code outside the visible source; what matters to
this layer is whether an observer commits the response itself (suppressing
the terminal write) and whether it fails (aborting the pass). -/
structure BHook where
  commits : Bool
  fails : Option String

/-- The registered hook chains of the application (`OnBeforeApiError` and
`OnAfterApiError`); an `afterError` observer is observational only, so it is
modelled by its failure outcome alone. -/
structure HookSetup where
  before : List BHook
  after : List (Option String)

/-- Modelled from the spec: the hook `Trigger` combinator (outside the
visible source) runs the `beforeError` observers in registration order as a
single composed operation ending in the terminal action; an observer failure
aborts the pass and is returned, otherwise the terminal action's result is
returned. -/
def triggerBefore : List BHook → (Resp → Resp × Option String) → Resp → Resp × Option String
  | [], terminal, r => terminal r
  | h :: hs, terminal, r =>
    match h.fails with
    | some e => ({ r with committed := r.committed || h.commits }, some e)
    | none => triggerBefore hs terminal { r with committed := r.committed || h.commits }

/-- Modelled from the spec: the `afterError` chain runs its observers in
order for observational side effects only; its outcome is the first observer
failure, if any. -/
def firstFailure : List (Option String) → Option String
  | [] => none
  | some e :: _ => some e
  | none :: rest => firstFailure rest

/-- The terminal action of the `beforeError` pass (`apis/base.go` lines
91-102): re-check that the response is not yet committed; then for a HEAD
request emit an empty body with the error's status code, and for every other
method emit the JSON-serialized ApiError with that status code. `writeFail`
is the environment's outcome for the physical write (`some` when e.g. the
client already disconnected). -/
def sendErrorResponse (method : Method) (writeFail : Option String) (apiErr : ApiError)
    (r : Resp) : Resp × Option String :=
  if r.committed then (r, none)
  else
    let ev := if method = Method.head then WriteEvent.noContent apiErr.code
              else WriteEvent.json apiErr.code apiErr.serialize
    ({ committed := true, writes := r.writes ++ [ev] }, writeFail)

/-- Everything observable about one invocation of the error handler: the
final response state, the diagnostic log entries in order, the ApiError of
the `ApiErrorEvent` that was built (none when the handler returned early),
and whether the before/after chains were triggered. -/
structure HandlerResult where
  resp : Resp
  logs : List LogEntry
  event : Option ApiError
  beforeTriggered : Bool
  afterTriggered : Bool

/-- The custom `e.HTTPErrorHandler` installed by `InitApi` (`apis/base.go`
lines 50-112): return immediately on a nil error; return (logging in debug
mode) if the response is already committed; otherwise classify the error,
build the event, run the `beforeError` chain ending in the terminal write,
and on success run the `afterError` chain. In the branch where an
`afterError` observer fails, the source calls `log.Println` on `hookErr` —
which is nil in that branch — so the entry logged there is `println none`. -/
def HTTPErrorHandler (debug : Bool) (hooks : HookSetup) (method : Method)
    (writeFail : Option String) (r : Resp) (err : Option GoError) : HandlerResult :=
  match err with
  | none => ⟨r, [], none, false, false⟩
  | some err1 =>
    if r.committed then
      ⟨r, if debug then [.committedAlready err1] else [], none, false, false⟩
    else
      let ce := classify debug err1
      let tr := triggerBefore hooks.before (sendErrorResponse method writeFail ce.1) r
      match tr.2 with
      | none =>
        ⟨tr.1,
          ce.2 ++ (match firstFailure hooks.after with
            | some _ => if debug then [LogEntry.println none] else []
            | none => []),
          some ce.1, true, true⟩
      | some he =>
        ⟨tr.1, ce.2 ++ (if debug then [LogEntry.println (some he)] else []),
          some ce.1, true, false⟩

/-- Splitting a character list on the slash separator, as the element walk
of Go's `fs.ValidPath` and `path.Clean` do; the empty input yields one empty
element, mirroring Go's treatment of the empty path. -/
def splitOnSlash : List Char → List (List Char)
  | [] => [[]]
  | '/' :: rest => [] :: splitOnSlash rest
  | c :: rest =>
    match splitOnSlash rest with
    | [] => [[c]]
    | e :: es => (c :: e) :: es

/-- An element acceptable to `fs.ValidPath`: non-empty and neither the
current-directory nor the parent-directory element. -/
def okElem (e : List Char) : Bool :=
  !(e == [] || e == ['.'] || e == ['.', '.'])

/-- Modelled from the spec: Go's `fs.ValidPath` (standard library, outside
the visible source; the source comment on `StaticDirectoryHandler` relies on
it). A name is valid when it is exactly the current-directory name, or all
of its slash-separated elements are non-empty and free of dot and dot-dot —
in particular it is unrooted and cannot climb out of the filesystem root. -/
def validPath (name : String) : Bool :=
  name == "." || (splitOnSlash name.toList).all okElem

/-- The element loop of Go's `path.Clean`: drop empty and dot elements; a
dot-dot element pops the previously kept element when one is available and
poppable, is dropped at the root of a rooted path, and is kept otherwise.
`acc` holds the kept elements in reverse. -/
def cleanElems (rooted : Bool) : List (List Char) → List (List Char) → List (List Char)
  | [], acc => acc.reverse
  | e :: rest, acc =>
    if e = [] ∨ e = ['.'] then cleanElems rooted rest acc
    else if e = ['.', '.'] then
      match acc with
      | [] => if rooted then cleanElems rooted rest []
              else cleanElems rooted rest [['.', '.']]
      | top :: tl =>
        if top = ['.', '.'] then cleanElems rooted rest (['.', '.'] :: acc)
        else cleanElems rooted rest tl
    else cleanElems rooted rest (e :: acc)

/-- Joining path elements back with slash separators. -/
def joinSlash : List (List Char) → List Char
  | [] => []
  | [e] => e
  | e :: rest => e ++ '/' :: joinSlash rest

/-- Modelled from the spec: Go's `filepath.Clean` on a platform whose
separator is the slash (standard library, outside the visible source):
shortest lexically equivalent path — multiple separators collapsed, dot
elements removed, dot-dot elements resolved against their parent, dot-dot at
the root of a rooted path dropped, empty result replaced by dot. -/
def cleanPath (path : String) : String :=
  if path = "" then "."
  else
    let cs := path.toList
    let rooted := cs.head? = some '/'
    let out := joinSlash (cleanElems rooted (splitOnSlash cs) [])
    if rooted then String.mk ('/' :: out)
    else if out = [] then "." else String.mk out

/-- Modelled from the spec: the slash-stripping call of the handler
(`strings.TrimPrefix` with the slash) — strip one leading separator when
present. -/
def trimOneLeadingSlash (s : String) : String :=
  if s.toList.head? = some '/' then s.drop 1 else s

/-- Modelled from the spec: `filepath.ToSlash` converts separators to the
slash; on a platform whose separator is already the slash it is the
identity. -/
def toSlash (s : String) : String := s

/-- Hexadecimal digit value, as `url.PathUnescape` accepts. -/
def hexVal (c : Char) : Option Nat :=
  if '0' ≤ c ∧ c ≤ '9' then some (c.toNat - '0'.toNat)
  else if 'a' ≤ c ∧ c ≤ 'f' then some (c.toNat - 'a'.toNat + 10)
  else if 'A' ≤ c ∧ c ≤ 'F' then some (c.toNat - 'A'.toNat + 10)
  else none

/-- Modelled from the spec: the character walk of Go's `url.PathUnescape`
(standard library, outside the visible source): a percent sign followed by
two hexadecimal digits decodes to the corresponding code point; a malformed
percent sequence makes the whole conversion fail; everything else passes
through. -/
def unescapeChars : List Char → Option (List Char)
  | [] => some []
  | '%' :: a :: b :: rest =>
    match hexVal a, hexVal b with
    | some hi, some lo => (unescapeChars rest).map (Char.ofNat (16 * hi + lo) :: ·)
    | _, _ => none
  | '%' :: _ => none
  | c :: rest => (unescapeChars rest).map (c :: ·)

/-- Modelled from the spec: `url.PathUnescape` on strings. -/
def pathUnescape (s : String) : Option String :=
  (unescapeChars s.toList).map String.mk

/-- The `echo.ErrNotFound` sentinel: a framework HTTP error with status 404
and the standard Not-Found status text. -/
def echoErrNotFound : GoError := .httpErr 404 "Not Found" none

/-- The `errors.Is` check against the `echo.ErrNotFound` sentinel along the
unwrap chain (within the static handler the only candidate with this shape
is the sentinel returned by the file-serving call itself). -/
def isEchoNotFound : GoError → Bool
  | .httpErr 404 m none => m == "Not Found"
  | .wrapped _ inner => isEchoNotFound inner
  | _ => false

/-- The underlying escape error of a failed percent-decoding
(`url.EscapeError`). -/
def escapeError : GoError := .errorString "invalid URL escape"

/-- A successfully served file: HTTP status, the name opened inside the
virtual filesystem, and its content. -/
structure ServedFile where
  status : Nat
  name : String
  content : String
deriving DecidableEq

/-- Modelled from the spec: `c.FileFS` (echo, outside the visible source)
opens `name` in the virtual filesystem and streams it with a success status;
per the source comment, `fs.FS.Open` treats names that are not valid
root-relative paths (`fs.ValidPath` false) as invalid, and echo turns every
failed open — missing or invalid name — into the `echo.ErrNotFound`
sentinel. -/
def FileFS (files : String → Option String) (name : String) : Except GoError ServedFile :=
  if validPath name then
    match files name with
    | some content => .ok ⟨200, name, content⟩
    | none => .error echoErrNotFound
  else .error echoErrNotFound

/-- The `StaticDirectoryHandler` of `apis/base.go` (lines 142-164):
percent-decode the wildcard path parameter (a decoding failure is returned
as a wrapped generic error); normalize it by stripping one leading slash,
cleaning, and canonicalizing separators; try to serve it; and when serving
failed with the Not-Found sentinel and `indexFallback` is set, serve the
fixed entry document instead, returning whatever that second attempt
yields. -/
def StaticDirectoryHandler (files : String → Option String) (indexFallback : Bool)
    (p : String) : Except GoError ServedFile :=
  match pathUnescape p with
  | none => .error (.wrapped "failed to unescape path variable" escapeError)
  | some tmpPath =>
    let name := toSlash (cleanPath (trimOneLeadingSlash tmpPath))
    match FileFS files name with
    | .ok served => .ok served
    | .error fileErr =>
      if indexFallback && isEchoNotFound fileErr then FileFS files "index.html"
      else .error fileErr

/-- The skipper installed on the trailing-slash middleware (`apis/base.go`
lines 40-43): skip every request whose URL path does not start with the
slash-terminated API mount. -/
def trailingSlashSkipper (path : String) : Bool :=
  !("/api/".toList.isPrefixOf path.toList)

/-- Modelled from the spec: the framework's trailing-slash removal (echo
middleware, outside the visible source) — when not skipped, one trailing
slash is removed from the path. -/
def removeTrailingSlash (path : String) : String :=
  if path.toList.getLast? = some '/' then path.dropRight 1 else path

/-- The path transformation of the configured middleware: apply the removal
exactly when the skipper does not fire. -/
def trailingSlashMiddlewarePath (path : String) : String :=
  if trailingSlashSkipper path then path else removeTrailingSlash path

end SpaceApis

namespace SpaceApis

/-- C1: the error classifier is total (it is a Lean function, producing
exactly one `ApiError` for every non-nil error) and applies its rules in
priority order: an error carrying ApiError semantics is used verbatim;
otherwise a framework HTTP error is wrapped preserving its status code and
rendered message; otherwise `sql.ErrNoRows` classifies to 404 and any other
error to 400. -/
theorem classify_total_priority (debug : Bool) (err : GoError) :
    (∀ a, findApiError err = some a → (classify debug err).1 = a) ∧
    (findApiError err = none →
      ∀ c m i, findHTTPError err = some (c, m, i) →
        (classify debug err).1.code = c ∧ (classify debug err).1.message = m) ∧
    (findApiError err = none → findHTTPError err = none →
      (errIsNoRows err = true → (classify debug err).1.code = 404) ∧
      (errIsNoRows err = false → (classify debug err).1.code = 400)) := by
  refine ⟨?_, ?_, ?_⟩
  · intro a ha
    simp [classify, ha]
  · intro hn c m i hh
    simp [classify, hn, hh, NewApiError]
  · intro hn hh
    constructor
    · intro hrows
      simp [classify, hn, hh, hrows, NewNotFoundError, NewApiError]
    · intro hrows
      simp [classify, hn, hh, hrows, NewBadRequestError, NewApiError]

/-- Witness for C1: evaluating the classifier on concrete inputs through the
theorem itself. -/
theorem classify_total_priority_witness :
    (classify true GoError.sqlNoRows).1.code = 404 ∧
    (classify true (GoError.errorString "x")).1.code = 400 ∧
    (classify false (GoError.httpErr 418 "teapot" none)).1.code = 418 := by
  refine ⟨?_, ?_, ?_⟩
  · exact ((classify_total_priority true GoError.sqlNoRows).2.2 rfl rfl).1 rfl
  · exact ((classify_total_priority true (GoError.errorString "x")).2.2 rfl rfl).2 rfl
  · exact ((classify_total_priority false (GoError.httpErr 418 "teapot" none)).2.1
      rfl 418 "teapot" none rfl).1

/-- Observers never touch the write list; the only step of a `beforeError`
pass that can append a write is the terminal action, and it appends at most
one. -/
theorem triggerBefore_writes_le (hs : List BHook) (method : Method)
    (wf : Option String) (apiErr : ApiError) (r : Resp) :
    ((triggerBefore hs (sendErrorResponse method wf apiErr) r).1.writes.length ≤
      r.writes.length + 1) := by
  induction hs generalizing r with
  | nil =>
    simp only [triggerBefore, sendErrorResponse]
    split
    · simp
    · simp
  | cons h hs ih =>
    simp only [triggerBefore]
    cases h.fails with
    | some e => simp
    | none => simpa using ih { r with committed := r.committed || h.commits }

/-- If the response was committed at entry, or some observer commits it
during the pass, the terminal re-check fires and no write at all happens. -/
theorem triggerBefore_committed_no_write (hs : List BHook) (method : Method)
    (wf : Option String) (apiErr : ApiError) (r : Resp)
    (h : r.committed = true ∨ ∃ b ∈ hs, b.commits = true) :
    (triggerBefore hs (sendErrorResponse method wf apiErr) r).1.writes = r.writes := by
  induction hs generalizing r with
  | nil =>
    rcases h with hc | ⟨b, hb, _⟩
    · simp [triggerBefore, sendErrorResponse, hc]
    · exact absurd hb (List.not_mem_nil b)
  | cons b hs ih =>
    simp only [triggerBefore]
    cases hb : b.fails with
    | some e => simp
    | none =>
      have : ({ r with committed := r.committed || b.commits } : Resp).committed = true ∨
          ∃ x ∈ hs, x.commits = true := by
        rcases h with hc | ⟨x, hx, hxc⟩
        · left; simp [hc]
        · rcases List.mem_cons.1 hx with rfl | hx'
          · left; simp [hxc]
          · right; exact ⟨x, hx', hxc⟩
      simpa using ih { r with committed := r.committed || b.commits } this

/-- Observers that neither fail nor commit leave the pass equal to the bare
terminal action. -/
theorem triggerBefore_clean (hs : List BHook) (terminal : Resp → Resp × Option String)
    (r : Resp) (hok : ∀ b ∈ hs, b.fails = none ∧ b.commits = false) :
    triggerBefore hs terminal r = terminal r := by
  induction hs generalizing r with
  | nil => rfl
  | cons b hs ih =>
    obtain ⟨hf, hc⟩ := hok b (List.mem_cons_self b hs)
    have hr : ({ r with committed := r.committed || b.commits } : Resp) = r := by
      simp [hc]
    simp only [triggerBefore, hf, hr]
    exact ih r fun x hx => hok x (List.mem_cons_of_mem b hx)

/-- C2: the error handler never writes a response twice. If the response is
already committed at entry it performs no classification-driven write and
triggers no hook; the committed flag is re-checked immediately before the
terminal write, so an observer that commits the response suppresses the
write; and in every case at most one write is appended. -/
theorem handler_single_write (debug : Bool) (hooks : HookSetup) (method : Method)
    (wf : Option String) (r : Resp) (err1 : GoError) :
    (r.committed = true →
      HTTPErrorHandler debug hooks method wf r (some err1) =
        ⟨r, if debug then [.committedAlready err1] else [], none, false, false⟩) ∧
    ((HTTPErrorHandler debug hooks method wf r (some err1)).resp.writes.length ≤
      r.writes.length + 1) ∧
    ((∃ b ∈ hooks.before, b.commits = true) →
      (HTTPErrorHandler debug hooks method wf r (some err1)).resp.writes = r.writes) := by
  by_cases hc : r.committed = true
  · refine ⟨fun _ => by simp [HTTPErrorHandler, hc], ?_, ?_⟩
    · simp [HTTPErrorHandler, hc]
    · intro _; simp [HTTPErrorHandler, hc]
  · have hc' : r.committed = false := by simpa using hc
    refine ⟨fun h => absurd h hc, ?_, ?_⟩
    · simp only [HTTPErrorHandler, hc', if_false]
      cases htr : (triggerBefore hooks.before
          (sendErrorResponse method wf (classify debug err1).1) r).2 with
      | none =>
        simpa [htr] using
          triggerBefore_writes_le hooks.before method wf (classify debug err1).1 r
      | some he =>
        simpa [htr] using
          triggerBefore_writes_le hooks.before method wf (classify debug err1).1 r
    · intro hex
      simp only [HTTPErrorHandler, hc', if_false]
      cases htr : (triggerBefore hooks.before
          (sendErrorResponse method wf (classify debug err1).1) r).2 with
      | none =>
        simpa [htr] using triggerBefore_committed_no_write hooks.before method wf
          (classify debug err1).1 r (Or.inr hex)
      | some he =>
        simpa [htr] using triggerBefore_committed_no_write hooks.before method wf
          (classify debug err1).1 r (Or.inr hex)

/-- Witness for C2: a committed response is left untouched, and a committing
observer suppresses the write, on concrete inputs. -/
theorem handler_single_write_witness :
    (HTTPErrorHandler false ⟨[], []⟩ Method.get none ⟨true, []⟩
        (some GoError.sqlNoRows)).resp.writes = [] ∧
    (HTTPErrorHandler false ⟨[⟨true, none⟩], []⟩ Method.get none ⟨false, []⟩
        (some GoError.sqlNoRows)).resp.writes = [] := by
  constructor
  · exact ((handler_single_write false ⟨[], []⟩ Method.get none ⟨true, []⟩
      GoError.sqlNoRows).1 rfl) ▸ rfl
  · exact (handler_single_write false ⟨[⟨true, none⟩], []⟩ Method.get none ⟨false, []⟩
      GoError.sqlNoRows).2.2 ⟨⟨true, none⟩, by simp, rfl⟩

/-- C3: on an uncommitted response the terminal action writes, for a HEAD
request, an empty body with the ApiError's status code, and for every other
method a JSON body whose fields are exactly a numeric `code` and a string
`message` — carrying that status code, with no `rawData` field present. -/
theorem terminal_write_wire_shape (method : Method) (wf : Option String)
    (apiErr : ApiError) (r : Resp) (h : r.committed = false) :
    (method = Method.head →
      (sendErrorResponse method wf apiErr r).1.writes =
        r.writes ++ [WriteEvent.noContent apiErr.code]) ∧
    (method ≠ Method.head →
      (sendErrorResponse method wf apiErr r).1.writes =
        r.writes ++ [WriteEvent.json apiErr.code apiErr.serialize]) ∧
    (apiErr.serialize = [("code", .num apiErr.code), ("message", .str apiErr.message)] ∧
      ∀ v, ("rawData", v) ∉ apiErr.serialize) := by
  refine ⟨?_, ?_, rfl, ?_⟩
  · intro hm; simp [sendErrorResponse, h, hm]
  · intro hm; simp [sendErrorResponse, h, hm]
  · intro v hv
    simp [ApiError.serialize] at hv

/-- Witness for C3: the concrete writes for a HEAD and a GET request on an
uncommitted response. -/
theorem terminal_write_wire_shape_witness :
    (sendErrorResponse Method.head none ⟨404, "nope", none⟩ ⟨false, []⟩).1.writes =
      [WriteEvent.noContent 404] ∧
    (sendErrorResponse Method.get none ⟨404, "nope", none⟩ ⟨false, []⟩).1.writes =
      [WriteEvent.json 404 [("code", .num 404), ("message", .str "nope")]] := by
  constructor
  · simpa using
      (terminal_write_wire_shape Method.head none ⟨404, "nope", none⟩ ⟨false, []⟩ rfl).1 rfl
  · simpa [ApiError.serialize] using
      (terminal_write_wire_shape Method.get none ⟨404, "nope", none⟩ ⟨false, []⟩ rfl).2.1
        (by simp)

/-- C7: when the observers pass and the terminal write itself fails (e.g.
the client disconnected mid-write), the failure is logged in diagnostic
mode via `println` and nothing further happens: the `afterError` chain does
not run and exactly the one write attempt was made — no retry. -/
theorem write_failure_terminal (debug : Bool) (hooks : HookSetup) (method : Method)
    (r : Resp) (w : String) (err1 : GoError)
    (hr : r.committed = false)
    (hok : ∀ b ∈ hooks.before, b.fails = none ∧ b.commits = false) :
    (HTTPErrorHandler debug hooks method (some w) r (some err1)).afterTriggered = false ∧
    (HTTPErrorHandler debug hooks method (some w) r (some err1)).resp.writes.length =
      r.writes.length + 1 ∧
    (debug = true →
      LogEntry.println (some w) ∈
        (HTTPErrorHandler debug hooks method (some w) r (some err1)).logs) := by
  have htb := triggerBefore_clean hooks.before
    (sendErrorResponse method (some w) (classify debug err1).1) r hok
  have hterm : sendErrorResponse method (some w) (classify debug err1).1 r =
      ({ committed := true,
         writes := r.writes ++ [if method = Method.head
           then WriteEvent.noContent (classify debug err1).1.code
           else WriteEvent.json (classify debug err1).1.code
             (classify debug err1).1.serialize] }, some w) := by
    simp [sendErrorResponse, hr]
  refine ⟨?_, ?_, ?_⟩
  · simp [HTTPErrorHandler, hr, htb, hterm]
  · simp [HTTPErrorHandler, hr, htb, hterm]
  · intro hd
    subst hd
    simp [HTTPErrorHandler, hr, htb, hterm]

/-- Witness for C7: a concrete failed write in debug mode with one clean
observer registered. -/
theorem write_failure_terminal_witness :
    (HTTPErrorHandler true ⟨[⟨false, none⟩], []⟩ Method.get (some "eof") ⟨false, []⟩
        (some (GoError.errorString "boom"))).afterTriggered = false ∧
    LogEntry.println (some "eof") ∈
      (HTTPErrorHandler true ⟨[⟨false, none⟩], []⟩ Method.get (some "eof") ⟨false, []⟩
        (some (GoError.errorString "boom"))).logs := by
  constructor
  · exact (write_failure_terminal true ⟨[⟨false, none⟩], []⟩ Method.get ⟨false, []⟩
      "eof" (GoError.errorString "boom") rfl (by simp)).1
  · exact (write_failure_terminal true ⟨[⟨false, none⟩], []⟩ Method.get ⟨false, []⟩
      "eof" (GoError.errorString "boom") rfl (by simp)).2.2 rfl

/-- C9: the error handler is a no-op for a nil error: the response is left
untouched (no write), nothing is logged, no event is built and neither hook
chain is triggered. -/
theorem handler_nil_noop (debug : Bool) (hooks : HookSetup) (method : Method)
    (wf : Option String) (r : Resp) :
    HTTPErrorHandler debug hooks method wf r none = ⟨r, [], none, false, false⟩ := rfl

/-- C6 evaluation: when an `afterError` observer fails while the
application runs in debug mode, the handler's log contains `println none` —
the source logs `hookErr`, which is nil in that branch — and the observer's
actual failure value (here the string of the failing after hook) appears
nowhere in the log; the failure is also never surfaced: the response still
holds exactly the one successful error write. -/
theorem after_error_failure_logs_nil :
    (HTTPErrorHandler true ⟨[], [some "after boom"]⟩ Method.get none ⟨false, []⟩
        (some (GoError.errorString "x"))).logs =
      [LogEntry.plainErr (GoError.errorString "x"), LogEntry.println none] ∧
    (HTTPErrorHandler true ⟨[], [some "after boom"]⟩ Method.get none ⟨false, []⟩
        (some (GoError.errorString "x"))).afterTriggered = true ∧
    (HTTPErrorHandler true ⟨[], [some "after boom"]⟩ Method.get none ⟨false, []⟩
        (some (GoError.errorString "x"))).resp.writes =
      [WriteEvent.json 400 [("code", .num 400), ("message", .str "")]] := by
  refine ⟨rfl, rfl, rfl⟩

/-- Inversion of a successful file-serving call: the name passed the
validity check, the file exists in the virtual filesystem, and it was served
with status 200 under its own name. -/
theorem FileFS_ok_inv (files : String → Option String) (name : String) (sf : ServedFile)
    (h : FileFS files name = .ok sf) :
    validPath name = true ∧ sf = ⟨200, name, sf.content⟩ ∧ files name = some sf.content := by
  unfold FileFS at h
  by_cases hv : validPath name = true
  · rw [hv] at h
    simp only [if_true] at h
    cases hf : files name with
    | none => rw [hf] at h; exact absurd h (by simp)
    | some content =>
      rw [hf] at h
      rw [Except.ok.injEq] at h
      subst h
      exact ⟨hv, rfl, rfl⟩
  · rw [Bool.not_eq_true] at hv
    rw [hv] at h
    exact absurd h (by simp)

/-- A slash-headed character list splits into an empty first element. -/
theorem splitOnSlash_slash_head (cs : List Char) (h : cs.head? = some '/') :
    ∃ rest, splitOnSlash cs = [] :: rest := by
  cases cs with
  | nil => simp at h
  | cons c cs' =>
    simp only [List.head?_cons, Option.some.injEq] at h
    subst h
    exact ⟨splitOnSlash cs', rfl⟩

/-- A name accepted by the validity check is confined to the filesystem
root: it does not start with a separator and contains no parent-directory
element. -/
theorem validPath_confined (name : String) (h : validPath name = true) :
    name.toList.head? ≠ some '/' ∧ ['.', '.'] ∉ splitOnSlash name.toList := by
  unfold validPath at h
  rw [Bool.or_eq_true] at h
  rcases h with h | h
  · have : name = "." := by simpa using h
    subst this
    constructor
    · simp [String.toList]
    · simp [String.toList, splitOnSlash]
  · rw [List.all_eq_true] at h
    constructor
    · intro hh
      obtain ⟨rest, hr⟩ := splitOnSlash_slash_head name.toList hh
      have := h [] (by rw [hr]; exact List.mem_cons_self [] rest)
      simp [okElem] at this
    · intro hm
      have := h ['.', '.'] hm
      simp [okElem] at this

/-- C5: whatever the request path — including parent-directory traversal
attempts — a file served by the static handler was opened inside the
configured virtual filesystem root: its name passed the root-relative
validity check, so it has no leading separator and no parent-directory
element, and it is either the normalized (leading-slash-stripped, cleaned,
separator-canonicalized) percent-decoded request path or the entry
document. -/
theorem static_no_escape (files : String → Option String) (fb : Bool) (p : String)
    (sf : ServedFile) (h : StaticDirectoryHandler files fb p = .ok sf) :
    validPath sf.name = true ∧
    files sf.name = some sf.content ∧
    sf.name.toList.head? ≠ some '/' ∧
    ['.', '.'] ∉ splitOnSlash sf.name.toList ∧
    (∃ q, pathUnescape p = some q ∧
      (sf.name = toSlash (cleanPath (trimOneLeadingSlash q)) ∨ sf.name = "index.html")) := by
  unfold StaticDirectoryHandler at h
  cases hq : pathUnescape p with
  | none => rw [hq] at h; exact absurd h (by simp)
  | some q =>
    rw [hq] at h
    simp only at h
    cases hf : FileFS files (toSlash (cleanPath (trimOneLeadingSlash q))) with
    | ok served =>
      rw [hf] at h
      simp only [Except.ok.injEq] at h
      subst h
      obtain ⟨hv, hsf, hfile⟩ :=
        FileFS_ok_inv files (toSlash (cleanPath (trimOneLeadingSlash q))) served hf
      have hname : served.name = toSlash (cleanPath (trimOneLeadingSlash q)) := by
        rw [hsf]
      obtain ⟨h1, h2⟩ := validPath_confined served.name (hname ▸ hv)
      exact ⟨hname ▸ hv, hname ▸ hfile, h1, h2, q, rfl, Or.inl hname⟩
    | error fileErr =>
      rw [hf] at h
      dsimp only at h
      by_cases hcond : (fb && isEchoNotFound fileErr) = true
      · rw [hcond] at h
        simp only [if_true] at h
        obtain ⟨hv, hsf, hfile⟩ := FileFS_ok_inv files "index.html" sf h
        have hname : sf.name = "index.html" := by rw [hsf]
        obtain ⟨h1, h2⟩ := validPath_confined sf.name (hname ▸ hv)
        exact ⟨hname ▸ hv, hname ▸ hfile, h1, h2, q, rfl, Or.inr hname⟩
      · rw [Bool.not_eq_true] at hcond
        rw [hcond] at h
        exact absurd h (by simp)

/-- C4: with the percent-decoded path in hand, a Not-Found outcome of the
file-serving attempt makes the handler serve the fixed entry document when
the fallback is enabled — with status 200 when the entry document exists,
and with the Not-Found sentinel surfacing when the entry document itself is
missing — while with the fallback disabled the Not-Found sentinel surfaces
directly; the classifier turns that sentinel into the standard 404 error. -/
theorem static_index_fallback (files : String → Option String) (fb : Bool)
    (p q : String) (hdec : pathUnescape p = some q)
    (hmiss : FileFS files (toSlash (cleanPath (trimOneLeadingSlash q))) =
      .error echoErrNotFound) :
    (fb = true → StaticDirectoryHandler files fb p = FileFS files "index.html") ∧
    (fb = false → StaticDirectoryHandler files fb p = .error echoErrNotFound) ∧
    (∀ c, files "index.html" = some c →
      FileFS files "index.html" = .ok ⟨200, "index.html", c⟩) ∧
    (files "index.html" = none → FileFS files "index.html" = .error echoErrNotFound) ∧
    (classify true echoErrNotFound).1.code = 404 ∧
    (classify false echoErrNotFound).1.code = 404 := by
  refine ⟨?_, ?_, ?_, ?_, rfl, rfl⟩
  · intro hfb
    subst hfb
    unfold StaticDirectoryHandler
    rw [hdec]
    simp only [hmiss]
    rfl
  · intro hfb
    subst hfb
    unfold StaticDirectoryHandler
    rw [hdec]
    simp only [hmiss]
    rfl
  · intro c hc
    simp [FileFS, validPath, hc, splitOnSlash, okElem]
  · intro hc
    simp [FileFS, validPath, hc, splitOnSlash, okElem]

/-- Witness for C4: a concrete missing path with the fallback enabled serves
the entry document with status 200, and with the fallback disabled the
Not-Found sentinel surfaces. -/
theorem static_index_fallback_witness :
    (StaticDirectoryHandler
        (fun n => if n = "index.html" then some "IDX" else none) true "/missing" =
      Except.ok ⟨200, "index.html", "IDX"⟩) ∧
    (StaticDirectoryHandler
        (fun n => if n = "index.html" then some "IDX" else none) false "/missing" =
      Except.error echoErrNotFound) := by
  constructor
  · have h := static_index_fallback
      (fun n => if n = "index.html" then some "IDX" else none) true "/missing" "/missing"
      (by rfl) (by rfl)
    rw [h.1 rfl]
    exact h.2.2.1 "IDX" rfl
  · exact (static_index_fallback
      (fun n => if n = "index.html" then some "IDX" else none) false "/missing" "/missing"
      (by rfl) (by rfl)).2.1 rfl

/-- Witness for C5: the parent-directory traversal request resolves only to
the entry document — a root-confined name — never to a file outside the
root. -/
theorem static_no_escape_witness :
    validPath "index.html" = true ∧
    ['.', '.'] ∉ splitOnSlash "index.html".toList := by
  have h := static_no_escape
    (fun n => if n = "index.html" then some "IDX" else none) true
    "/../../etc/passwd" ⟨200, "index.html", "IDX"⟩ (by rfl)
  exact ⟨h.1, h.2.2.2.1⟩

/-- C10: a percent-decoding failure of the request path is fatal for that
request: the handler returns the wrapped generic error unchanged — the same
with or without the fallback — the entry document is never served in its
place, and that error is not the Not-Found sentinel; moreover the
file-serving call itself only ever fails with the Not-Found sentinel, so no
other failure can reach the fallback test. -/
theorem static_unescape_failure_fatal (files : String → Option String) (fb : Bool)
    (p : String) (h : pathUnescape p = none) :
    StaticDirectoryHandler files fb p =
      .error (.wrapped "failed to unescape path variable" escapeError) ∧
    StaticDirectoryHandler files fb p = StaticDirectoryHandler files false p ∧
    (∀ sf, StaticDirectoryHandler files fb p ≠ .ok sf) ∧
    isEchoNotFound (.wrapped "failed to unescape path variable" escapeError) = false ∧
    (∀ name e, FileFS files name = .error e → e = echoErrNotFound) := by
  have hmain : ∀ b, StaticDirectoryHandler files b p =
      .error (.wrapped "failed to unescape path variable" escapeError) := by
    intro b
    unfold StaticDirectoryHandler
    rw [h]
  refine ⟨hmain fb, by rw [hmain fb, hmain false], ?_, rfl, ?_⟩
  · intro sf hk
    rw [hmain fb] at hk
    exact absurd hk (by simp)
  · intro name e he
    unfold FileFS at he
    by_cases hv : validPath name = true
    · rw [hv] at he
      simp only [if_true] at he
      cases hf : files name with
      | none => rw [hf] at he; simpa using he.symm
      | some c => rw [hf] at he; exact absurd he (by simp)
    · rw [Bool.not_eq_true] at hv
      rw [hv] at he
      simpa using he.symm

/-- Witness for C10: a concrete path with a malformed percent sequence. -/
theorem static_unescape_failure_fatal_witness :
    StaticDirectoryHandler (fun _ => some "X") true "/bad%zz" =
      Except.error (.wrapped "failed to unescape path variable" escapeError) :=
  (static_unescape_failure_fatal (fun _ => some "X") true "/bad%zz" rfl).1

/-- C8: the trailing-slash middleware acts exactly on paths under the API
mount: a path starting with the slash-terminated mount has one trailing
slash removed (when it carries one), and every other path passes through
unmodified. -/
theorem trailing_slash_scope (p : String) :
    ("/api/".toList.isPrefixOf p.toList = true →
      trailingSlashMiddlewarePath p = removeTrailingSlash p ∧
      (p.toList.getLast? = some '/' → trailingSlashMiddlewarePath p = p.dropRight 1)) ∧
    ("/api/".toList.isPrefixOf p.toList = false → trailingSlashMiddlewarePath p = p) := by
  constructor
  · intro hp
    have hs : trailingSlashSkipper p = false := by
      unfold trailingSlashSkipper
      rw [hp]
      rfl
    refine ⟨?_, ?_⟩
    · unfold trailingSlashMiddlewarePath
      rw [hs]
      simp
    · intro he
      unfold trailingSlashMiddlewarePath removeTrailingSlash
      rw [hs, he]
      simp
  · intro hp
    have hs : trailingSlashSkipper p = true := by
      unfold trailingSlashSkipper
      rw [hp]
      rfl
    unfold trailingSlashMiddlewarePath
    rw [hs]
    simp

/-- Witness for C8: a concrete API path loses its trailing slash while a
path outside the mount is untouched. -/
theorem trailing_slash_scope_witness :
    trailingSlashMiddlewarePath "/api/users/" = "/api/users" ∧
    trailingSlashMiddlewarePath "/web/users/" = "/web/users/" := by
  constructor
  · exact (((trailing_slash_scope "/api/users/").1 (by rfl)).2 (by rfl)).trans (by rfl)
  · exact (trailing_slash_scope "/web/users/").2 (by rfl)

end SpaceApis
